import Mathlib

/-!
Shallow embedding of the camera subsystem of `bevy_rancic`
(`src/camera/shake.rs` and `src/camera/mod.rs`).

Numeric values (`f32` in the source) are modelled as exact rationals `ℚ`;
the operations appearing on the verified paths (`+`, `-`, `abs`, `min`,
`max`, comparisons) are order-exact on floats, so the order/lattice facts
proved here transfer.  For the one claim that is explicitly about `f32`
rounding behaviour, a separate exact binary32 model (dyadic significand /
exponent pairs with round-to-nearest-even) is developed further below.

The wall-clock seed draw in `CameraSettings::add_trauma`
(`Utc::now().timestamp_millis() & 0xFFFF`) is an ambient effect; it is
modelled by passing the freshly drawn seed value as an explicit argument
(`newSeed`), exactly as the spec requires the seed source to be injectable.
-/

namespace Rancic

/-- 2D vector (`Vec2`), modelled componentwise over `ℚ`. -/
structure Vec2 where
  x : ℚ
  y : ℚ
  deriving DecidableEq, Repr

/-- Axis-aligned bounding box (`bevy::math::bounding::Aabb2d`). -/
structure Aabb2d where
  min : Vec2
  max : Vec2
  deriving DecidableEq, Repr

/-- Struct `CameraShake` from `src/camera/shake.rs`. -/
structure CameraShake where
  trauma : ℚ
  seed : ℚ
  target : Vec2
  noise_strength : ℚ
  translation_shake_strength : ℚ
  rotation_shake_strength : ℚ
  deriving DecidableEq, Repr

/-- Impl `Default for CameraShake` from `src/camera/shake.rs`. -/
def CameraShake.default : CameraShake :=
  { trauma := 0
    seed := 0
    target := ⟨0, 0⟩
    noise_strength := 10
    translation_shake_strength := 15
    rotation_shake_strength := 5/2 }

/-- Resource `CameraSettings` from `src/camera/shake.rs`. -/
structure CameraSettings where
  shake : CameraShake
  bounds : Option Aabb2d
  deriving DecidableEq, Repr

/-- Method `CameraSettings::add_trauma`.  The pseudo-random seed that the source
draws from the wall clock when `trauma == 0` is injected as `newSeed`. -/
def addTrauma (newSeed : ℚ) (trauma : ℚ) (s : CameraSettings) : CameraSettings :=
  let s := if s.shake.trauma = 0 then { s with shake.seed := newSeed } else s
  { s with shake.trauma := min (s.shake.trauma + |trauma|) 1 }

/-- Method `CameraSettings::add_trauma_with_threshold`. -/
def addTraumaWithThreshold (newSeed : ℚ) (trauma threshold : ℚ)
    (s : CameraSettings) : CameraSettings :=
  if s.shake.trauma ≥ threshold then s
  else addTrauma newSeed trauma s

/-- Method `CameraSettings::reduce_trauma`. -/
def reduceTrauma (delta : ℚ) (s : CameraSettings) : CameraSettings :=
  { s with shake.trauma := max (s.shake.trauma - |delta|) 0 }

/-- Rust's `f32::clamp(self, min, max)` panics when `min > max`; the panic
is modelled as `none`. -/
def rustClamp (x lo hi : ℚ) : Option ℚ :=
  if lo ≤ hi then some (max lo (min x hi)) else none

/-- Method `CameraSettings::clamp_pos`.  `none` models a panic of the inner
`f32::clamp` calls. -/
def clampPos (s : CameraSettings) (pos projection_area : Vec2) : Option Vec2 :=
  let area : Vec2 := ⟨projection_area.x / 2, projection_area.y / 2⟩
  match s.bounds with
  | some b =>
      if projection_area.x ≥ b.max.x - b.min.x ∨
          projection_area.y ≥ b.max.y - b.min.y then
        some pos
      else do
        let cx ← rustClamp pos.x (b.min.x + area.x) (b.max.x - area.x)
        let cy ← rustClamp pos.y (b.min.y + area.y) (b.max.y - area.y)
        some ⟨cx, cy⟩
  | none => some pos

/-- Method `CameraSettings::noise_value`.  The external simplex noise
(`noisy_bevy::simplex_noise_2d_seeded`) is an injected parameter `noise`;
the source only fixes the point and seed it is evaluated at. -/
def noiseValue (noise : Vec2 → ℚ → ℚ) (s : CameraSettings) (stack : ℕ) : ℚ :=
  noise ⟨s.shake.trauma * s.shake.noise_strength, 0⟩ (s.shake.seed + stack)

/-- Conversion `f32::to_radians`: multiplication by the fixed conversion constant
π/180 (its value is irrelevant to the claims; only `to_radians 0 = 0`
matters, which holds for every fixed factor). -/
def toRadians (deg : ℚ) : ℚ := deg * (3141592653589793 / 180000000000000000)

/-- Constructor `Quat::from_rotation_z`: a rotation about the Z axis, represented by
its angle in radians.  The identity rotation is angle `0`. -/
def fromRotationZ (radians : ℚ) : ℚ := radians

/-- The bevy `Transform`, restricted to the fields the camera code touches:
a 3D translation and a rotation about Z (see `fromRotationZ`). -/
structure Transform where
  translation : ℚ × ℚ × ℚ
  rotation : ℚ
  deriving DecidableEq, Repr

/-- One entity matched by `update_camera`'s query: its `Transform` and its
`OrthographicProjection.area.size()`. -/
structure CameraEntity where
  transform : Transform
  area : Vec2
  deriving DecidableEq, Repr

/-- System `update_camera` from `src/camera/shake.rs`.  `cams` is the list
of entities matching `Query<(&mut Transform, &OrthographicProjection),
With<MainCamera>>`; `get_single_mut` succeeds iff it is a singleton, and
the `Err(_) => return` branch leaves the world untouched.  The second
component of the result collects diagnostics emitted via the `error!` /
`warn!` logging macros — `update_camera` contains no such call, so every
branch emits `[]`.  `none` models a panic of the inner `f32::clamp`. -/
def updateCamera (noise : Vec2 → ℚ → ℚ) (s : CameraSettings)
    (cams : List CameraEntity) : Option (List CameraEntity × List String) :=
  match cams with
  | [cam] =>
      let translation_offset : ℚ × ℚ × ℚ :=
        (noiseValue noise s 0 * s.shake.trauma ^ 2 * s.shake.translation_shake_strength,
         noiseValue noise s 1 * s.shake.trauma ^ 2 * s.shake.translation_shake_strength,
         0)
      let rotation_offset : ℚ :=
        fromRotationZ (toRadians
          (noiseValue noise s 2 * s.shake.trauma ^ 2 * s.shake.rotation_shake_strength))
      let pos : Vec2 :=
        ⟨s.shake.target.x + translation_offset.1, s.shake.target.y + translation_offset.2.1⟩
      match clampPos s pos cam.area with
      | some c =>
          some ([{ cam with transform :=
                    { translation := (c.x, c.y, cam.transform.translation.2.2)
                      rotation := rotation_offset } }], [])
      | none => none
  | _ => some (cams, [])

/-- A sequence of `add_trauma` calls, each with its injected seed
(first component) and trauma amount (second component). -/
def addTraumaSeq (calls : List (ℚ × ℚ)) (s : CameraSettings) : CameraSettings :=
  calls.foldl (fun acc c => addTrauma c.1 c.2 acc) s

/-- A sequence of per-frame decay steps (`decay_shake_trauma`), one entry
per frame holding that frame's `time.delta_seconds()`. -/
def decaySeq (deltas : List ℚ) (s : CameraSettings) : CameraSettings :=
  deltas.foldl (fun acc d => reduceTrauma d acc) s

/-- Constant YSORT scale from `src/camera/mod.rs`. -/
def YSORT_SCALE : ℚ := 1 / 10000

/-- One ECS entity as seen by the four y-sort systems of
`src/camera/mod.rs`: its `Transform`, the Y component of its
`GlobalTransform.translation()`, its optional `Parent`, and the four
optional y-sort marker components (each holding its base depth).  The
`Added<...>` query filters are modelled by the two `added` flags, true
exactly on the frame the component was attached. -/
structure SortEntity where
  id : ℕ
  transform : Transform
  globalY : ℚ
  parent : Option ℕ
  ysort : Option ℚ
  ysortChild : Option ℚ
  ysortStatic : Option ℚ
  ysortStaticChild : Option ℚ
  ysortStaticAdded : Bool
  ysortStaticChildAdded : Bool
  deriving DecidableEq, Repr

/-- Set the Z component of an entity's `Transform.translation`. -/
def SortEntity.setZ (e : SortEntity) (z : ℚ) : SortEntity :=
  { e with transform :=
      { e.transform with
          translation := (e.transform.translation.1, e.transform.translation.2.1, z) } }

/-- The ECS world: the list of all spawned entities. -/
abbrev World := List SortEntity

/-- Lookup `q_parents.get(parent.get())` in `apply_y_sort_child`: the parent query
is `Query<&Transform, (With<YSort>, Without<YSortChild>)>`, so lookup
succeeds iff the entity exists, has `YSort` and lacks `YSortChild`. -/
def getParentYSort (w : World) (pid : ℕ) : Option SortEntity :=
  (w.filter fun p => p.id = pid ∧ p.ysort.isSome ∧ p.ysortChild = none).head?

/-- Lookup `q_parents.get(parent.get())` in `apply_y_sort_static_child`: the
parent query is `(With<YSortStatic>, Without<YSortStaticChild>)`. -/
def getParentYSortStatic (w : World) (pid : ℕ) : Option SortEntity :=
  (w.filter fun p => p.id = pid ∧ p.ysortStatic.isSome ∧ p.ysortStaticChild = none).head?

/-- System `apply_y_sort`: for every entity with a `YSort(b)`,
`transform.translation.z = (b - global_transform.translation().y) * YSORT_SCALE`. -/
def applyYSort (w : World) : World :=
  w.map fun e =>
    match e.ysort with
    | some b => e.setZ ((b - e.globalY) * YSORT_SCALE)
    | none => e

/-- System `apply_y_sort_child`: entities matched by
`(&Parent, &mut Transform, &GlobalTransform, &YSortChild), Without<YSort>`.
The parent query and the mutable query are disjoint (`Without<YSortChild>`
vs `With<YSortChild>` … `With<YSort>` vs `Without<YSort>`), so parent
transforms are never written by this system and all lookups read `w`. -/
def applyYSortChild (w : World) : World :=
  w.map fun e =>
    match e.ysortChild, e.ysort, e.parent with
    | some b, none, some pid =>
        match getParentYSort w pid with
        | some p =>
            e.setZ ((b - e.globalY) * YSORT_SCALE - p.transform.translation.2.2)
        | none => e
    | _, _, _ => e

/-- System `apply_y_sort_static`: same computation as `apply_y_sort`, but the
query carries the `Added<YSortStatic>` filter, so only entities whose
component was attached this frame are touched. -/
def applyYSortStatic (w : World) : World :=
  w.map fun e =>
    match e.ysortStatic, e.ysortStaticAdded with
    | some b, true => e.setZ ((b - e.globalY) * YSORT_SCALE)
    | _, _ => e

/-- System `apply_y_sort_static_child`: same computation as `apply_y_sort_child`
with the static markers, filtered by `Added<YSortStaticChild>` and
`Without<YSortStatic>`. -/
def applyYSortStaticChild (w : World) : World :=
  w.map fun e =>
    match e.ysortStaticChild, e.ysortStatic, e.ysortStaticChildAdded, e.parent with
    | some b, none, true, some pid =>
        match getParentYSortStatic w pid with
        | some p =>
            e.setZ ((b - e.globalY) * YSORT_SCALE - p.transform.translation.2.2)
        | none => e
    | _, _, _, _ => e

/-- End-of-frame bookkeeping of Bevy's `Added<...>` change detection: after
the systems of a frame have run, a component is no longer "added". -/
def clearAdded (w : World) : World :=
  w.map fun e => { e with ysortStaticAdded := false, ysortStaticChildAdded := false }

/-- One frame of the y-sort pipeline, in the `.chain()` order declared in
`CameraPlugin::build`: `apply_y_sort`, `apply_y_sort_child`,
`apply_y_sort_static`, `apply_y_sort_static_child`. -/
def runYSortFrame (w : World) : World :=
  clearAdded (applyYSortStaticChild (applyYSortStatic (applyYSortChild (applyYSort w))))

/-! ### Exact binary32 model

For the claim that is explicitly about `f32` rounding, floats are
represented as dyadic rationals `m * 2 ^ e` and addition renormalises with
round-to-nearest, ties-to-even — IEEE-754 binary32 semantics, exact on the
value range exercised here (normal numbers far from overflow/underflow,
where `f32` addition is exactly round-to-nearest-even of the exact sum). -/

/-- Number of bits of `n` (fuel-based so the kernel can evaluate it). -/
def bitLenAux : ℕ → ℕ → ℕ
  | 0, _ => 0
  | fuel + 1, n => if n = 0 then 0 else bitLenAux fuel (n / 2) + 1

/-- Number of bits of `n`: `bitLen 6 = 3`, `bitLen 0 = 0`. -/
def bitLen (n : ℕ) : ℕ := bitLenAux 64 n

/-- Shift a nonnegative integer right by `k` bits, rounding to nearest
with ties to even. -/
def rshiftRNE (s : ℕ) (k : ℕ) : ℕ :=
  let d := 2 ^ k
  let q := s / d
  let r := s % d
  if 2 * r < d then q
  else if d < 2 * r then q + 1
  else if q % 2 = 0 then q else q + 1

/-- A binary32 value `m * 2 ^ e` (sign carried by `m`). -/
structure F32 where
  m : ℤ
  e : ℤ
  deriving DecidableEq, Repr

/-- The exact rational value of a binary32 number. -/
def F32.toRat (x : F32) : ℚ := (x.m : ℚ) * (2 : ℚ) ^ x.e

/-- Renormalise an exact intermediate result `s * 2 ^ e` to 24 bits of
significand, rounding to nearest-even. -/
def fnorm (s : ℤ) (e : ℤ) : F32 :=
  let n := s.natAbs
  let k := bitLen n
  if k ≤ 24 then ⟨s, e⟩
  else
    let sh := k - 24
    let m := rshiftRNE n sh
    ⟨s.sign * m, e + sh⟩

/-- binary32 addition: align the significands on the smaller exponent
(exact), add, renormalise with round-to-nearest-even. -/
def F32.add (a b : F32) : F32 :=
  let e := min a.e b.e
  fnorm (a.m * 2 ^ (a.e - e).toNat + b.m * 2 ^ (b.e - e).toNat) e

/-- binary32 negation (exact). -/
def F32.neg (a : F32) : F32 := ⟨-a.m, a.e⟩

/-- binary32 subtraction. -/
def F32.sub (a b : F32) : F32 := a.add b.neg

/-- Operation `f32::abs` (exact). -/
def F32.fabs (a : F32) : F32 := ⟨|a.m|, a.e⟩

/-- Comparison of two binary32 values: comparisons on floats are exact
value comparisons, and after aligning the significands on the common
smaller exponent they are plain integer comparisons (`F32.fle_iff_toRat`
below proves the agreement with the rational values). -/
def F32.fle (a b : F32) : Prop :=
  a.m * 2 ^ (a.e - min a.e b.e).toNat ≤ b.m * 2 ^ (b.e - min a.e b.e).toNat

instance (a b : F32) : Decidable (a.fle b) := by unfold F32.fle; infer_instance

/-- Operation `f32::min` (comparisons on floats are exact value comparisons). -/
def F32.fmin (a b : F32) : F32 := if a.fle b then a else b

/-- Operation `f32::max`. -/
def F32.fmax (a b : F32) : F32 := if a.fle b then b else a

/-- The `f32` literal `0.0`. -/
def f32zero : F32 := ⟨0, 0⟩
/-- The `f32` literal `1.0`. -/
def f32one : F32 := ⟨1, 0⟩
/-- The `f32` literal `0.5` (exact). -/
def f32half : F32 := ⟨1, -1⟩
/-- The `f32` literal `0.3`: the binary32 nearest to 3/10. -/
def f32_0_3 : F32 := ⟨10066330, -25⟩
/-- The `f32` literal `0.1`: the binary32 nearest to 1/10. -/
def f32_0_1 : F32 := ⟨13421773, -27⟩
/-- The `f32` literal `0.2`: the binary32 nearest to 2/10. -/
def f32_0_2 : F32 := ⟨13421773, -26⟩

/-- The shake state restricted to the fields the trauma scenario touches,
in exact binary32 arithmetic. -/
structure ShakeF32 where
  trauma : F32
  seed : F32
  deriving DecidableEq, Repr

/-- Method `CameraSettings::add_trauma` in exact binary32 arithmetic (seed source
injected as `newSeed`). -/
def addTraumaF32 (newSeed : F32) (trauma : F32) (s : ShakeF32) : ShakeF32 :=
  -- `trauma == 0.0` in the source; `m = 0` iff the value is `0`
  -- (`F32.m_eq_zero_iff` below).
  let s := if s.trauma.m = 0 then { s with seed := newSeed } else s
  { s with trauma := (s.trauma.add trauma.fabs).fmin f32one }

/-- Method `CameraSettings::add_trauma_with_threshold` in exact binary32
arithmetic. -/
def addTraumaWithThresholdF32 (newSeed : F32) (trauma threshold : F32)
    (s : ShakeF32) : ShakeF32 :=
  if threshold.fle s.trauma then s
  else addTraumaF32 newSeed trauma s

/-- Method `CameraSettings::reduce_trauma` in exact binary32 arithmetic. -/
def reduceTraumaF32 (delta : F32) (s : ShakeF32) : ShakeF32 :=
  { s with trauma := (s.trauma.sub delta.fabs).fmax f32zero }

/-- The trauma scenario of the spec, with the injected seed draws as
parameters: `add_trauma(0.5)` starting from `trauma = 0`. -/
def scenarioS1 (seed1 : F32) : ShakeF32 :=
  addTraumaF32 seed1 f32half ⟨f32zero, f32zero⟩

/-- Scenario continued: a decay step with `elapsed = 0.3`. -/
def scenarioS2 (seed1 : F32) : ShakeF32 :=
  reduceTraumaF32 f32_0_3 (scenarioS1 seed1)

/-- Scenario continued: `add_trauma_with_threshold(0.1, 0.3)` (the injected draw `n3` is
discarded by the code because trauma is nonzero at this point). -/
def scenarioS3 (seed1 n3 : F32) : ShakeF32 :=
  addTraumaWithThresholdF32 n3 f32_0_1 f32_0_3 (scenarioS2 seed1)

/-- Scenario continued: a final decay step with `elapsed = 0.3`. -/
def scenarioS4 (seed1 n3 : F32) : ShakeF32 :=
  reduceTraumaF32 f32_0_3 (scenarioS3 seed1 n3)

/-! ### Soundness lemmas for the binary32 embedding -/

/-- Aligning a binary32 value on any smaller exponent is exact. -/
lemma F32.toRat_align (a : F32) {e : ℤ} (he : e ≤ a.e) :
    a.toRat = ((a.m * 2 ^ (a.e - e).toNat : ℤ) : ℚ) * (2 : ℚ) ^ e := by
  unfold F32.toRat
  push_cast
  rw [mul_assoc, ← zpow_natCast (2 : ℚ) (a.e - e).toNat,
    Int.toNat_of_nonneg (show (0 : ℤ) ≤ a.e - e by omega),
    ← zpow_add₀ (two_ne_zero), sub_add_cancel]

/-- The integer comparison `F32.fle` agrees with comparison of the exact
rational values, which is how `f32` comparisons behave. -/
lemma F32.fle_iff_toRat (a b : F32) : a.fle b ↔ a.toRat ≤ b.toRat := by
  rw [F32.toRat_align a (min_le_left a.e b.e),
    F32.toRat_align b (min_le_right a.e b.e)]
  unfold F32.fle
  constructor
  · intro h
    exact mul_le_mul_of_nonneg_right (Int.cast_le.mpr h) (by positivity)
  · intro h
    exact Int.cast_le.mp (le_of_mul_le_mul_right h (by positivity))

/-- Testing `m = 0` is the same test as `toRat = 0`, i.e. as `== 0.0` on `f32`. -/
lemma F32.m_eq_zero_iff (a : F32) : a.m = 0 ↔ a.toRat = 0 := by
  unfold F32.toRat
  constructor
  · intro h
    simp [h]
  · intro h
    rcases mul_eq_zero.mp h with h' | h'
    · exact_mod_cast h'
    · exact absurd h' (zpow_ne_zero _ (by norm_num))

/-! ### Helper lemmas -/

/-- Call `add_trauma` always sets `trauma` to `min (trauma + |amount|) 1`. -/
lemma addTrauma_trauma (ns a : ℚ) (s : CameraSettings) :
    (addTrauma ns a s).shake.trauma = min (s.shake.trauma + |a|) 1 := by
  unfold addTrauma
  split <;> rfl

/-- Call `add_trauma` never touches `bounds`, `target` or the strengths, and
changes the seed only in the `trauma == 0` branch. -/
lemma addTrauma_seed (ns a : ℚ) (s : CameraSettings) :
    (addTrauma ns a s).shake.seed =
      if s.shake.trauma = 0 then ns else s.shake.seed := by
  unfold addTrauma
  split <;> simp_all

/-- The `[0,1]` interval is an invariant of `add_trauma` sequences. -/
lemma addTraumaSeq_bounds (calls : List (ℚ × ℚ)) (s : CameraSettings)
    (h0 : 0 ≤ s.shake.trauma) (h1 : s.shake.trauma ≤ 1) :
    0 ≤ (addTraumaSeq calls s).shake.trauma ∧
      (addTraumaSeq calls s).shake.trauma ≤ 1 := by
  induction calls generalizing s with
  | nil => exact ⟨h0, h1⟩
  | cons c rest ih =>
      have step : addTraumaSeq (c :: rest) s = addTraumaSeq rest (addTrauma c.1 c.2 s) := rfl
      rw [step]
      refine ih _ ?_ ?_
      · rw [addTrauma_trauma]
        exact le_min (add_nonneg h0 (abs_nonneg _)) (by norm_num)
      · rw [addTrauma_trauma]
        exact min_le_right _ _

/-- Closed form of a decay sequence: folding `reduce_trauma` over
nonnegative deltas subtracts their sum, saturating at `0`. -/
lemma decaySeq_trauma (l : List ℚ) (s : CameraSettings)
    (h0 : 0 ≤ s.shake.trauma) (h : ∀ d ∈ l, 0 ≤ d) :
    (decaySeq l s).shake.trauma = max (s.shake.trauma - l.sum) 0 := by
  induction l generalizing s with
  | nil =>
      simp only [decaySeq, List.foldl_nil, List.sum_nil, sub_zero]
      exact (max_eq_left h0).symm
  | cons d rest ih =>
      have hd : 0 ≤ d := h d (by simp)
      have hrest : ∀ x ∈ rest, 0 ≤ x := fun x hx => h x (by simp [hx])
      have hsum : 0 ≤ rest.sum := List.sum_nonneg hrest
      have step : decaySeq (d :: rest) s = decaySeq rest (reduceTrauma d s) := rfl
      have hred : (reduceTrauma d s).shake.trauma = max (s.shake.trauma - |d|) 0 := rfl
      rw [step, ih _ (by rw [hred]; exact le_max_right _ _) hrest, hred,
        abs_of_nonneg hd, List.sum_cons]
      rcases le_total (s.shake.trauma - d) 0 with hc | hc
      · rw [max_eq_right hc, max_eq_right (by linarith), max_eq_right (by linarith)]
      · rw [max_eq_left hc]
        congr 1
        ring

/-! ### The claims -/

/-- C1: `add_trauma(amount)` draws and stores a fresh seed iff `trauma == 0`
before the call, leaves the seed unchanged when `trauma > 0`, and sets
`trauma = min(trauma + |amount|, 1)`; consequently, starting from
`trauma = 0`, every sequence of `add_trauma` calls keeps `trauma` in
`[0,1]`.  (The freshly drawn seed — wall-clock milliseconds masked to 16
bits in the source — is the injected argument `ns`.) -/
theorem addTrauma_spec :
    (∀ ns a s, s.shake.trauma = 0 → (addTrauma ns a s).shake.seed = ns)
  ∧ (∀ ns a s, 0 < s.shake.trauma → (addTrauma ns a s).shake.seed = s.shake.seed)
  ∧ (∀ ns a s, (addTrauma ns a s).shake.trauma = min (s.shake.trauma + |a|) 1)
  ∧ (∀ calls s, s.shake.trauma = 0 →
      0 ≤ (addTraumaSeq calls s).shake.trauma ∧
        (addTraumaSeq calls s).shake.trauma ≤ 1) := by
  refine ⟨?_, ?_, ?_, ?_⟩
  · intro ns a s h
    rw [addTrauma_seed, if_pos h]
  · intro ns a s h
    rw [addTrauma_seed, if_neg (by linarith)]
  · intro ns a s
    exact addTrauma_trauma ns a s
  · intro calls s h
    exact addTraumaSeq_bounds calls s (by rw [h]) (by rw [h]; norm_num)

/-- A concrete camera settings value (the `Default` instance) used to
instantiate the claim theorems. -/
def testSettings : CameraSettings := { shake := CameraShake.default, bounds := none }

/-- Witness for C1 at concrete inputs: from the default state (`trauma = 0`)
a call stores the injected seed `7`; a state with `trauma = 1/2 > 0` keeps
its seed; the trauma update formula holds; a two-call sequence stays in
`[0,1]`. -/
theorem addTrauma_spec_witness :
    (addTrauma 7 (1/2) testSettings).shake.seed = 7
  ∧ (addTrauma 9 (1/4) (addTrauma 7 (1/2) testSettings)).shake.seed = 7
  ∧ (addTrauma 7 (1/2) testSettings).shake.trauma = min (0 + |1/2|) 1
  ∧ (0 ≤ (addTraumaSeq [(7, 1/2), (9, 3/4)] testSettings).shake.trauma ∧
      (addTraumaSeq [(7, 1/2), (9, 3/4)] testSettings).shake.trauma ≤ 1) := by
  have h0 : testSettings.shake.trauma = 0 := rfl
  have h1 : (addTrauma 7 (1/2) testSettings).shake.seed = 7 :=
    addTrauma_spec.1 7 (1/2) testSettings h0
  have h2 : (addTrauma 7 (1/2) testSettings).shake.trauma = min (0 + |1/2|) 1 := by
    rw [addTrauma_spec.2.2.1 7 (1/2) testSettings, h0]
  refine ⟨h1, ?_, h2, addTrauma_spec.2.2.2 [(7, 1/2), (9, 3/4)] testSettings h0⟩
  rw [addTrauma_spec.2.1 9 (1/4) (addTrauma 7 (1/2) testSettings)
    (by rw [h2]; norm_num), h1]

/-- C2: `reduce_trauma` sets `trauma` to `max(trauma - |elapsed|, 0)`; for
every starting trauma in `[0,1]` and every decay sequence with nonnegative
elapsed times, trauma is monotonically non-increasing (every extension of
a decay sequence yields a value `≤` the prefix's), is never below `0`, and
is exactly `0` once the accumulated elapsed time reaches the starting
trauma. -/
theorem reduceTrauma_spec :
    (∀ d s, (reduceTrauma d s).shake.trauma = max (s.shake.trauma - |d|) 0)
  ∧ (∀ s (l₁ l₂ : List ℚ), 0 ≤ s.shake.trauma → s.shake.trauma ≤ 1 →
      (∀ d ∈ l₁ ++ l₂, 0 ≤ d) →
      (decaySeq (l₁ ++ l₂) s).shake.trauma ≤ (decaySeq l₁ s).shake.trauma)
  ∧ (∀ s (l : List ℚ), 0 ≤ s.shake.trauma → s.shake.trauma ≤ 1 →
      (∀ d ∈ l, 0 ≤ d) → 0 ≤ (decaySeq l s).shake.trauma)
  ∧ (∀ s (l : List ℚ), 0 ≤ s.shake.trauma → s.shake.trauma ≤ 1 →
      (∀ d ∈ l, 0 ≤ d) → s.shake.trauma ≤ l.sum →
      (decaySeq l s).shake.trauma = 0) := by
  refine ⟨fun d s => rfl, ?_, ?_, ?_⟩
  · intro s l₁ l₂ h0 _ h
    have h1 : ∀ d ∈ l₁, 0 ≤ d := fun d hd => h d (by simp [hd])
    have h2 : ∀ d ∈ l₂, 0 ≤ d := fun d hd => h d (by simp [hd])
    have hs2 : 0 ≤ l₂.sum := List.sum_nonneg h2
    rw [decaySeq_trauma _ _ h0 h, decaySeq_trauma _ _ h0 h1, List.sum_append]
    exact max_le_max (by linarith) le_rfl
  · intro s l h0 _ h
    rw [decaySeq_trauma _ _ h0 h]
    exact le_max_right _ _
  · intro s l h0 _ h hsum
    rw [decaySeq_trauma _ _ h0 h]
    exact max_eq_right (by linarith)

/-- Witness for C2 at concrete inputs: one step from trauma `1/2` with
elapsed `3/10`; monotonicity, nonnegativity and exact zero for the decay
sequence `[3/10, 3/10]` from trauma `1/2`. -/
theorem reduceTrauma_spec_witness :
    (reduceTrauma (3/10) (addTrauma 7 (1/2) testSettings)).shake.trauma =
      max ((addTrauma 7 (1/2) testSettings).shake.trauma - |3/10|) 0
  ∧ (decaySeq [3/10, 3/10] (addTrauma 7 (1/2) testSettings)).shake.trauma ≤
      (decaySeq [3/10] (addTrauma 7 (1/2) testSettings)).shake.trauma
  ∧ 0 ≤ (decaySeq [3/10, 3/10] (addTrauma 7 (1/2) testSettings)).shake.trauma
  ∧ (decaySeq [3/10, 3/10] (addTrauma 7 (1/2) testSettings)).shake.trauma = 0 := by
  have ht : (addTrauma 7 (1/2) testSettings).shake.trauma = 1/2 := by
    rw [addTrauma_trauma]
    norm_num [testSettings, CameraShake.default, abs_of_nonneg, min_def]
  have h0 : (0:ℚ) ≤ (addTrauma 7 (1/2) testSettings).shake.trauma := by rw [ht]; norm_num
  have h1 : (addTrauma 7 (1/2) testSettings).shake.trauma ≤ 1 := by rw [ht]; norm_num
  have hpos : ∀ d ∈ [(3:ℚ)/10, 3/10], 0 ≤ d := by norm_num
  refine ⟨reduceTrauma_spec.1 (3/10) _, ?_, ?_, ?_⟩
  · exact reduceTrauma_spec.2.1 _ [3/10] [3/10] h0 h1 hpos
  · exact reduceTrauma_spec.2.2.1 _ [3/10, 3/10] h0 h1 hpos
  · refine reduceTrauma_spec.2.2.2 _ [3/10, 3/10] h0 h1 hpos ?_
    rw [ht]
    norm_num

/-- C7: `add_trauma_with_threshold(x, t)` is a no-op (the whole
`CameraSettings` state — trauma, seed, target, strengths, bounds — is
unchanged) when `trauma >= t`, and behaves exactly as `add_trauma(x)` when
`trauma < t`. -/
theorem addTraumaWithThreshold_spec :
    ∀ ns x t s,
    (t ≤ s.shake.trauma → addTraumaWithThreshold ns x t s = s)
  ∧ (s.shake.trauma < t →
      addTraumaWithThreshold ns x t s = addTrauma ns x s) := by
  intro ns x t s
  constructor
  · intro h
    rw [addTraumaWithThreshold, if_pos h]
  · intro h
    rw [addTraumaWithThreshold, if_neg (by simpa using not_le.mpr h)]

/-- Witness for C7 at concrete inputs: with trauma `1/2`, a call with
threshold `3/10 ≤ 1/2` is a no-op, and a call with threshold `3/5 > 1/2`
behaves as `add_trauma`. -/
theorem addTraumaWithThreshold_spec_witness :
    addTraumaWithThreshold 9 (1/10) (3/10) (addTrauma 7 (1/2) testSettings) =
      addTrauma 7 (1/2) testSettings
  ∧ addTraumaWithThreshold 9 (1/10) (3/5) (addTrauma 7 (1/2) testSettings) =
      addTrauma 9 (1/10) (addTrauma 7 (1/2) testSettings) := by
  have ht : (addTrauma 7 (1/2) testSettings).shake.trauma = 1/2 := by
    rw [addTrauma_trauma]
    norm_num [testSettings, CameraShake.default, abs_of_nonneg, min_def]
  exact ⟨(addTraumaWithThreshold_spec 9 (1/10) (3/10) _).1 (by rw [ht]; norm_num),
    (addTraumaWithThreshold_spec 9 (1/10) (3/5) _).2 (by rw [ht]; norm_num)⟩

/-- C3: `clamp_pos` returns `p` unchanged when no bounds are configured,
returns `p` unchanged on both axes when the viewport is at least as wide
or as tall as the bounds rectangle (escape hatch), and otherwise clamps
each axis independently to `[b.min + area/2, b.max - area/2]`, which keeps
the whole viewport rectangle centered at the result inside the bounds. -/
theorem clampPos_spec :
    ∀ s p a,
    (s.bounds = none → clampPos s p a = some p)
  ∧ (∀ b, s.bounds = some b →
      a.x ≥ b.max.x - b.min.x ∨ a.y ≥ b.max.y - b.min.y →
      clampPos s p a = some p)
  ∧ (∀ b, s.bounds = some b →
      a.x < b.max.x - b.min.x → a.y < b.max.y - b.min.y →
      clampPos s p a =
        some ⟨max (b.min.x + a.x/2) (min p.x (b.max.x - a.x/2)),
              max (b.min.y + a.y/2) (min p.y (b.max.y - a.y/2))⟩
      ∧ ∀ q, clampPos s p a = some q →
          b.min.x ≤ q.x - a.x/2 ∧ q.x + a.x/2 ≤ b.max.x ∧
          b.min.y ≤ q.y - a.y/2 ∧ q.y + a.y/2 ≤ b.max.y) := by
  intro s p a
  refine ⟨?_, ?_, ?_⟩
  · intro h
    simp [clampPos, h]
  · intro b hb hor
    simp only [clampPos, hb]
    rw [if_pos hor]
  · intro b hb h1 h2
    have hlox : b.min.x + a.x/2 ≤ b.max.x - a.x/2 := by linarith
    have hloy : b.min.y + a.y/2 ≤ b.max.y - a.y/2 := by linarith
    have heval : clampPos s p a =
        some ⟨max (b.min.x + a.x/2) (min p.x (b.max.x - a.x/2)),
              max (b.min.y + a.y/2) (min p.y (b.max.y - a.y/2))⟩ := by
      simp [clampPos, hb, rustClamp, hlox, hloy, ge_iff_le, h1.not_le, h2.not_le]
    refine ⟨heval, ?_⟩
    intro q hq
    rw [heval] at hq
    obtain rfl : q = _ := (Option.some_injective _ hq).symm
    refine ⟨?_, ?_, ?_, ?_⟩
    · have := le_max_left (b.min.x + a.x/2) (min p.x (b.max.x - a.x/2))
      dsimp only
      linarith
    · have := max_le hlox (min_le_right p.x (b.max.x - a.x/2))
      dsimp only
      linarith
    · have := le_max_left (b.min.y + a.y/2) (min p.y (b.max.y - a.y/2))
      dsimp only
      linarith
    · have := max_le hloy (min_le_right p.y (b.max.y - a.y/2))
      dsimp only
      linarith

/-- A concrete camera settings value with bounds `[0,100] × [0,100]`. -/
def boundsSettings : CameraSettings :=
  { shake := CameraShake.default, bounds := some ⟨⟨0, 0⟩, ⟨100, 100⟩⟩ }

/-- Witness for C3 at concrete inputs: no bounds leaves `(150, -50)`
untouched; an oversized viewport (`120 ≥ 100`) leaves it untouched; a
`10 × 10` viewport clamps it to `(95, 5)`, and the viewport square centered
there lies inside `[0,100] × [0,100]`. -/
theorem clampPos_spec_witness :
    clampPos testSettings ⟨150, -50⟩ ⟨10, 10⟩ = some ⟨150, -50⟩
  ∧ clampPos boundsSettings ⟨150, -50⟩ ⟨120, 10⟩ = some ⟨150, -50⟩
  ∧ clampPos boundsSettings ⟨150, -50⟩ ⟨10, 10⟩ = some ⟨95, 5⟩
  ∧ ((0:ℚ) ≤ 95 - 10/2 ∧ (95:ℚ) + 10/2 ≤ 100 ∧
      (0:ℚ) ≤ 5 - 10/2 ∧ (5:ℚ) + 10/2 ≤ 100) := by
  have hb : boundsSettings.bounds = some ⟨⟨0, 0⟩, ⟨100, 100⟩⟩ := rfl
  have h3 := (clampPos_spec boundsSettings ⟨150, -50⟩ ⟨10, 10⟩).2.2
    ⟨⟨0, 0⟩, ⟨100, 100⟩⟩ hb (by norm_num) (by norm_num)
  have heq : clampPos boundsSettings ⟨150, -50⟩ ⟨10, 10⟩ = some ⟨95, 5⟩ := by
    rw [h3.1]
    norm_num [max_def, min_def]
  refine ⟨(clampPos_spec testSettings ⟨150, -50⟩ ⟨10, 10⟩).1 rfl,
    (clampPos_spec boundsSettings ⟨150, -50⟩ ⟨120, 10⟩).2.1
      ⟨⟨0, 0⟩, ⟨100, 100⟩⟩ hb (by norm_num), heq, ?_⟩
  simpa using h3.2 ⟨95, 5⟩ heq

/-- Function `clamp_pos` never reaches an inverted clamp range: all inputs produce
a value (shared helper). -/
lemma clampPos_isSome (s : CameraSettings) (p a : Vec2) :
    (clampPos s p a).isSome = true := by
  rcases hs : s.bounds with _ | b
  · simp [clampPos, hs]
  · by_cases hesc : a.x ≥ b.max.x - b.min.x ∨ a.y ≥ b.max.y - b.min.y
    · simp only [clampPos, hs]
      rw [if_pos hesc]
      rfl
    · push_neg at hesc
      obtain ⟨h1, h2⟩ := hesc
      have hlox : b.min.x + a.x/2 ≤ b.max.x - a.x/2 := by linarith
      have hloy : b.min.y + a.y/2 ≤ b.max.y - a.y/2 := by linarith
      simp [clampPos, hs, rustClamp, hlox, hloy, ge_iff_le, h1.not_le, h2.not_le]

/-- C10: whenever the per-axis clamp branch is taken (viewport strictly
smaller than the bounds rectangle on both axes, bounds with `min ≤ max`),
the clamp range `[b.min + area/2, b.max - area/2]` is not inverted on
either axis; moreover `clamp_pos` never hits the `f32::clamp` panic at
all — it is total for all inputs. -/
theorem clampPos_total :
    (∀ (b : Aabb2d) (a : Vec2), b.min.x ≤ b.max.x → b.min.y ≤ b.max.y →
      a.x < b.max.x - b.min.x → a.y < b.max.y - b.min.y →
      b.min.x + a.x/2 ≤ b.max.x - a.x/2 ∧ b.min.y + a.y/2 ≤ b.max.y - a.y/2)
  ∧ (∀ s p a, (clampPos s p a).isSome = true) := by
  constructor
  · intro b a _ _ h1 h2
    constructor <;> linarith
  · exact clampPos_isSome

/-- Witness for C10 at concrete inputs: for bounds `[0,100] × [0,100]` and
a `10 × 10` viewport the clamp range is not inverted, and `clamp_pos`
returns a value (no panic). -/
theorem clampPos_total_witness :
    ((0:ℚ) + 10/2 ≤ 100 - 10/2 ∧ (0:ℚ) + 10/2 ≤ 100 - 10/2)
  ∧ (clampPos boundsSettings ⟨150, -50⟩ ⟨10, 10⟩).isSome = true := by
  have h := clampPos_total.1 ⟨⟨0, 0⟩, ⟨100, 100⟩⟩ ⟨10, 10⟩
    (by norm_num) (by norm_num) (by norm_num) (by norm_num)
  exact ⟨h, clampPos_total.2 boundsSettings ⟨150, -50⟩ ⟨10, 10⟩⟩

/-- C4: every entity carrying a y-sort tag with base depth `b` and world Y
coordinate `y` is assigned depth `z = (b - y) * S` with `S = 0.0001`; the
`*Child` variants additionally subtract the parent's currently stored
`transform.translation.z`; and a `*Child` entity whose parent lacks the
corresponding non-child tag is left untouched for the frame (no error, no
depth update). -/
theorem ySort_assign_spec :
    ∀ (w : World) (i : ℕ) (e : SortEntity), w[i]? = some e →
    (∀ b, e.ysort = some b →
      (applyYSort w)[i]? = some (e.setZ ((b - e.globalY) * YSORT_SCALE)))
  ∧ (∀ b pid p, e.ysort = none → e.ysortChild = some b → e.parent = some pid →
      getParentYSort w pid = some p →
      (applyYSortChild w)[i]? =
        some (e.setZ ((b - e.globalY) * YSORT_SCALE - p.transform.translation.2.2)))
  ∧ (∀ b pid, e.ysort = none → e.ysortChild = some b → e.parent = some pid →
      getParentYSort w pid = none →
      (applyYSortChild w)[i]? = some e)
  ∧ (∀ b, e.ysortStatic = some b → e.ysortStaticAdded = true →
      (applyYSortStatic w)[i]? = some (e.setZ ((b - e.globalY) * YSORT_SCALE)))
  ∧ (∀ b pid p, e.ysortStatic = none → e.ysortStaticChild = some b →
      e.ysortStaticChildAdded = true → e.parent = some pid →
      getParentYSortStatic w pid = some p →
      (applyYSortStaticChild w)[i]? =
        some (e.setZ ((b - e.globalY) * YSORT_SCALE - p.transform.translation.2.2)))
  ∧ (∀ b pid, e.ysortStatic = none → e.ysortStaticChild = some b →
      e.ysortStaticChildAdded = true → e.parent = some pid →
      getParentYSortStatic w pid = none →
      (applyYSortStaticChild w)[i]? = some e) := by
  intro w i e hw
  refine ⟨?_, ?_, ?_, ?_, ?_, ?_⟩
  · intro b hb
    simp [applyYSort, List.getElem?_map, hw, hb]
  · intro b pid p hy hc hp hpar
    simp [applyYSortChild, List.getElem?_map, hw, hy, hc, hp, hpar]
  · intro b pid hy hc hp hpar
    simp [applyYSortChild, List.getElem?_map, hw, hy, hc, hp, hpar]
  · intro b hb hadd
    simp [applyYSortStatic, List.getElem?_map, hw, hb, hadd]
  · intro b pid p hs hc hadd hp hpar
    simp [applyYSortStaticChild, List.getElem?_map, hw, hs, hc, hadd, hp, hpar]
  · intro b pid hs hc hadd hp hpar
    simp [applyYSortStaticChild, List.getElem?_map, hw, hs, hc, hadd, hp, hpar]

/-- A parent entity with `YSort(7)`, world Y `4`, stored depth `2`. -/
def parentEnt : SortEntity :=
  { id := 0, transform := { translation := (0, 0, 2), rotation := 0 }
    globalY := 4, parent := none, ysort := some 7, ysortChild := none
    ysortStatic := none, ysortStaticChild := none
    ysortStaticAdded := false, ysortStaticChildAdded := false }

/-- A child of `parentEnt` with `YSortChild(3)` and world Y `5`. -/
def childEnt : SortEntity :=
  { id := 1, transform := { translation := (0, 0, 0), rotation := 0 }
    globalY := 5, parent := some 0, ysort := none, ysortChild := some 3
    ysortStatic := none, ysortStaticChild := none
    ysortStaticAdded := false, ysortStaticChildAdded := false }

/-- A child whose claimed parent (id `9`) does not exist. -/
def orphanEnt : SortEntity :=
  { id := 2, transform := { translation := (0, 0, 0), rotation := 0 }
    globalY := 6, parent := some 9, ysort := none, ysortChild := some 1
    ysortStatic := none, ysortStaticChild := none
    ysortStaticAdded := false, ysortStaticChildAdded := false }

/-- A concrete world for the y-sort witnesses. -/
def testWorld : World := [parentEnt, childEnt, orphanEnt]

/-- Witness for C4 at the concrete world: `YSort(7)` at Y `4` becomes
`z = (7-4)*S`; the child additionally subtracts the parent's stored `z = 2`;
the orphaned child is left untouched. -/
theorem ySort_assign_spec_witness :
    (applyYSort testWorld)[0]? =
      some (parentEnt.setZ ((7 - 4) * YSORT_SCALE))
  ∧ (applyYSortChild testWorld)[1]? =
      some (childEnt.setZ ((3 - 5) * YSORT_SCALE - 2))
  ∧ (applyYSortChild testWorld)[2]? = some orphanEnt := by
  have h0 := (ySort_assign_spec testWorld 0 parentEnt rfl).1 7 rfl
  have h1 := (ySort_assign_spec testWorld 1 childEnt rfl).2.1 3 0 parentEnt
    rfl rfl rfl rfl
  have h2 := (ySort_assign_spec testWorld 2 orphanEnt rfl).2.2.1 1 9
    rfl rfl rfl rfl
  refine ⟨by simpa [parentEnt] using h0, ?_, h2⟩
  have hz : parentEnt.transform.translation.2.2 = 2 := rfl
  rw [h1, hz]
  simp [childEnt]

/-- C5: an entity tagged `YSortStatic`/`YSortStaticChild` has its depth
computed once, on the frame the tag is attached (`Added` filter true), and
the frame clears the `Added` mark; on every later frame the y-sort systems
leave the entity — in particular its stored `z` — entirely unchanged,
whatever its current world Y position is. -/
theorem ySortStatic_once_spec :
    ∀ (w : World) (i : ℕ) (e : SortEntity), w[i]? = some e →
    e.ysort = none → e.ysortChild = none →
    (∀ b, e.ysortStatic = some b → e.ysortStaticChild = none →
      (e.ysortStaticAdded = true →
        (runYSortFrame w)[i]? =
          some { e.setZ ((b - e.globalY) * YSORT_SCALE) with
                 ysortStaticAdded := false, ysortStaticChildAdded := false })
      ∧ (e.ysortStaticAdded = false → e.ysortStaticChildAdded = false →
          (runYSortFrame w)[i]? = some e))
  ∧ (∀ b, e.ysortStatic = none → e.ysortStaticChild = some b →
      e.ysortStaticAdded = false → e.ysortStaticChildAdded = false →
      (runYSortFrame w)[i]? = some e) := by
  intro w i e hw hy hc
  obtain ⟨eid, etr, egy, epar, ey, eyc, eys, eysc, ea, eca⟩ := e
  simp only at hy hc
  subst hy hc
  constructor
  · intro b hs hsc
    simp only at hs hsc
    subst hs hsc
    constructor
    · intro hadd
      simp only at hadd
      subst hadd
      simp [runYSortFrame, clearAdded, applyYSortStaticChild, applyYSortStatic,
        applyYSortChild, applyYSort, List.getElem?_map, hw, SortEntity.setZ]
    · intro hadd hcadd
      simp only at hadd hcadd
      subst hadd hcadd
      simp [runYSortFrame, clearAdded, applyYSortStaticChild, applyYSortStatic,
        applyYSortChild, applyYSort, List.getElem?_map, hw, SortEntity.setZ]
  · intro b hs hsc hadd hcadd
    simp only at hs hsc hadd hcadd
    subst hs hsc hadd hcadd
    simp [runYSortFrame, clearAdded, applyYSortStaticChild, applyYSortStatic,
      applyYSortChild, applyYSort, List.getElem?_map, hw, SortEntity.setZ]

/-- An entity whose `YSortStatic(6)` was attached this frame, at Y `8`. -/
def staticEnt : SortEntity :=
  { id := 3, transform := { translation := (0, 0, 0), rotation := 0 }
    globalY := 8, parent := none, ysort := none, ysortChild := none
    ysortStatic := some 6, ysortStaticChild := none
    ysortStaticAdded := true, ysortStaticChildAdded := false }

/-- The same entity after its attach frame and after moving to Y `50`:
its depth was computed from Y `8` and its `Added` mark is cleared. -/
def staticEntMoved : SortEntity :=
  { id := 3, transform := { translation := (0, 0, (6 - 8) * YSORT_SCALE), rotation := 0 }
    globalY := 50, parent := none, ysort := none, ysortChild := none
    ysortStatic := some 6, ysortStaticChild := none
    ysortStaticAdded := false, ysortStaticChildAdded := false }

/-- Witness for C5 at concrete inputs: on the attach frame the static
entity gets `z = (6-8)*S` and its `Added` mark is cleared; on a later
frame, after the entity moved to Y `50`, the frame leaves it (and in
particular its stored `z`) unchanged. -/
theorem ySortStatic_once_spec_witness :
    (runYSortFrame [staticEnt])[0]? =
      some { staticEnt.setZ ((6 - staticEnt.globalY) * YSORT_SCALE) with
             ysortStaticAdded := false, ysortStaticChildAdded := false }
  ∧ (runYSortFrame [staticEntMoved])[0]? = some staticEntMoved := by
  exact ⟨((ySortStatic_once_spec [staticEnt] 0 staticEnt rfl rfl rfl).1
      6 rfl rfl).1 rfl,
    ((ySortStatic_once_spec [staticEntMoved] 0 staticEntMoved rfl rfl rfl).1
      6 rfl rfl).2 rfl rfl⟩

/-- C6: whenever `trauma == 0` when `update_camera` runs, the translation
offset components and the rotation offset are exactly zero (identity
rotation), so the written transform is neutral: its XY translation is the
clamped target, its Z is preserved, and its rotation is the identity —
regardless of the stored seed, the noise function, the noise strength and
the shake strengths. -/
theorem updateCamera_neutral_spec :
    ∀ (noise : Vec2 → ℚ → ℚ) (s : CameraSettings) (cam : CameraEntity) (q : Vec2),
    s.shake.trauma = 0 →
    (noiseValue noise s 0 * s.shake.trauma ^ 2 * s.shake.translation_shake_strength = 0
  ∧ noiseValue noise s 1 * s.shake.trauma ^ 2 * s.shake.translation_shake_strength = 0
  ∧ fromRotationZ (toRadians (noiseValue noise s 2 * s.shake.trauma ^ 2 *
        s.shake.rotation_shake_strength)) = 0)
  ∧ (clampPos s s.shake.target cam.area = some q →
      updateCamera noise s [cam] =
        some ([{ cam with transform :=
          { translation := (q.x, q.y, cam.transform.translation.2.2)
            rotation := 0 } }], [])) := by
  intro noise s cam q h
  have h2 : s.shake.trauma ^ 2 = 0 := by rw [h]; ring
  constructor
  · refine ⟨?_, ?_, ?_⟩ <;> simp [h2, toRadians, fromRotationZ]
  · intro hq
    have hv : (⟨s.shake.target.x, s.shake.target.y⟩ : Vec2) = s.shake.target := rfl
    simp only [updateCamera, h2, mul_zero, zero_mul, add_zero, hv, hq,
      toRadians, fromRotationZ]

/-- A concrete camera entity at translation `(3, 4, 9)`, rotation `1`. -/
def testCam : CameraEntity :=
  { transform := { translation := (3, 4, 9), rotation := 1 }, area := ⟨10, 10⟩ }

/-- Witness for C6 at concrete inputs: with `trauma = 0` (default state,
target `(0,0)`, no bounds) and a nontrivial noise function, the camera is
written the neutral transform: translation `(0, 0, 9)` (Z preserved),
identity rotation. -/
theorem updateCamera_neutral_spec_witness :
    updateCamera (fun v s => v.x + s) testSettings [testCam] =
      some ([{ testCam with transform :=
        { translation := (0, 0, 9), rotation := 0 } }], []) := by
  have h := (updateCamera_neutral_spec (fun v s => v.x + s) testSettings testCam
    ⟨0, 0⟩ rfl).2 rfl
  simpa [testCam] using h

/-- C8 counterexample: with zero `MainCamera` entities, `update_camera`
skips the frame but emits **no** diagnostic — the `Err(_) => return` branch
contains no logging call, so the diagnostic stream of the run is empty
(`[]`), contradicting the claim that a diagnostic is emitted. -/
theorem updateCamera_counterexample :
    updateCamera (fun _ _ => 0) testSettings [] = some ([], []) := rfl

/-- C8 (amended): if zero or more than one entity carries the `MainCamera`
tag when `update_camera` runs, the frame's update is skipped — the camera
list is returned unchanged, with no transform written and no diagnostic
emitted — and the condition is recoverable: on a later run with exactly
one camera the update is performed. -/
theorem updateCamera_skip_spec :
    (∀ (noise : Vec2 → ℚ → ℚ) (s : CameraSettings) (cams : List CameraEntity),
      cams.length ≠ 1 → updateCamera noise s cams = some (cams, []))
  ∧ (∀ (noise : Vec2 → ℚ → ℚ) (s : CameraSettings) (cam : CameraEntity),
      ∃ c, updateCamera noise s [cam] = some ([c], [])) := by
  constructor
  · intro noise s cams h
    match cams with
    | [] => rfl
    | [cam] => exact absurd rfl h
    | a :: b :: t => rfl
  · intro noise s cam
    obtain ⟨q, hq⟩ := Option.isSome_iff_exists.mp (clampPos_isSome s
      ⟨s.shake.target.x +
          noiseValue noise s 0 * s.shake.trauma ^ 2 * s.shake.translation_shake_strength,
        s.shake.target.y +
          noiseValue noise s 1 * s.shake.trauma ^ 2 * s.shake.translation_shake_strength⟩
      cam.area)
    refine ⟨{ cam with transform :=
      { translation := (q.x, q.y, cam.transform.translation.2.2)
        rotation := fromRotationZ (toRadians (noiseValue noise s 2 *
          s.shake.trauma ^ 2 * s.shake.rotation_shake_strength)) } }, ?_⟩
    simp only [updateCamera, hq]

/-- Witness for C8 at concrete inputs: two tagged cameras are left
untouched with no diagnostic; a later run with exactly one camera writes
a transform. -/
theorem updateCamera_skip_spec_witness :
    updateCamera (fun _ _ => 0) testSettings [testCam, testCam] =
      some ([testCam, testCam], [])
  ∧ ∃ c, updateCamera (fun _ _ => 0) testSettings [testCam] = some ([c], []) := by
  exact ⟨updateCamera_skip_spec.1 (fun _ _ => 0) testSettings [testCam, testCam]
      (by norm_num),
    updateCamera_skip_spec.2 (fun _ _ => 0) testSettings testCam⟩

/-- C9 counterexample: in `f32` arithmetic the scenario's intermediate
trauma values are **not** exactly `0.2` and `0.3`.  After
`add_trauma(0.5); decay(0.3)` the stored trauma is
`6710886·2⁻²⁵ = 0.19999998807…`, which differs both from the rational
`2/10` and from the `f32` literal `0.2` (`13421773·2⁻²⁶`); after the
threshold call it is `10066329·2⁻²⁵ = 0.29999998211…`, likewise different
from `3/10` and from the `f32` literal `0.3` (`10066330·2⁻²⁵`). -/
theorem scenario_f32_counterexample :
    (scenarioS2 f32zero).trauma ≠ f32_0_2
  ∧ (scenarioS2 f32zero).trauma.toRat ≠ 2/10
  ∧ (scenarioS3 f32zero f32zero).trauma ≠ f32_0_3
  ∧ (scenarioS3 f32zero f32zero).trauma.toRat ≠ 3/10 := by
  have h2 : (scenarioS2 f32zero).trauma = ⟨6710886, -25⟩ := by decide
  have h3 : (scenarioS3 f32zero f32zero).trauma = ⟨10066329, -25⟩ := by decide
  refine ⟨by rw [h2]; decide, by rw [h2]; norm_num [F32.toRat],
    by rw [h3]; decide, by rw [h3]; norm_num [F32.toRat]⟩

/-- Projection of `addTraumaF32`: the trauma update does not depend on the
injected seed. -/
lemma addTraumaF32_trauma (ns a : F32) (s : ShakeF32) :
    (addTraumaF32 ns a s).trauma = (s.trauma.add a.fabs).fmin f32one := by
  unfold addTraumaF32
  split <;> rfl

/-- Projection of `addTraumaF32`: the seed is replaced by the injected
draw exactly when the stored trauma is zero. -/
lemma addTraumaF32_seed (ns a : F32) (s : ShakeF32) :
    (addTraumaF32 ns a s).seed = if s.trauma.m = 0 then ns else s.seed := by
  unfold addTraumaF32
  split <;> simp_all

/-- Lemma: `addTraumaWithThresholdF32` unfolded as a conditional. -/
lemma addTraumaWithThresholdF32_eq (ns a t : F32) (s : ShakeF32) :
    addTraumaWithThresholdF32 ns a t s =
      if t.fle s.trauma then s else addTraumaF32 ns a s := rfl

/-- Projection of `reduceTraumaF32` on the trauma field. -/
lemma reduceTraumaF32_trauma (d : F32) (s : ShakeF32) :
    (reduceTraumaF32 d s).trauma = (s.trauma.sub d.fabs).fmax f32zero := rfl

/-- Projection of `reduceTraumaF32` on the seed field. -/
lemma reduceTraumaF32_seed (d : F32) (s : ShakeF32) :
    (reduceTraumaF32 d s).seed = s.seed := rfl

/-- C9 (amended): starting from `trauma = 0`, the call sequence
`add_trauma(0.5); decay(0.3); add_trauma_with_threshold(0.1, 0.3);
decay(0.3)` produces, in `f32` arithmetic, the exact intermediate trauma
values `0.5`, `6710886·2⁻²⁵` (≈ 0.19999999, the `f32` result of
`0.5 - 0.3`), `10066329·2⁻²⁵` (≈ 0.29999998), and finally exactly `0.0`;
the fresh seed `S1` is recorded at the first call (and kept through the
threshold call), and a subsequent `add_trauma(0.2)` after the
zero-crossing records the seed `S2` then drawn, which differs from `S1`
whenever the seed source differs. -/
theorem scenario_f32_amended (S1 N3 S2 : F32) :
    (scenarioS1 S1).trauma = f32half
  ∧ (scenarioS1 S1).seed = S1
  ∧ (scenarioS2 S1).trauma = ⟨6710886, -25⟩
  ∧ (scenarioS3 S1 N3).trauma = ⟨10066329, -25⟩
  ∧ (scenarioS3 S1 N3).seed = S1
  ∧ (scenarioS4 S1 N3).trauma = f32zero
  ∧ (addTraumaF32 S2 f32_0_2 (scenarioS4 S1 N3)).seed = S2
  ∧ (S1 ≠ S2 →
      (addTraumaF32 S2 f32_0_2 (scenarioS4 S1 N3)).seed ≠ (scenarioS1 S1).seed) := by
  have h1t : (scenarioS1 S1).trauma = f32half := by
    rw [scenarioS1, addTraumaF32_trauma]
    decide
  have h1s : (scenarioS1 S1).seed = S1 := by
    rw [scenarioS1, addTraumaF32_seed]
    simp [f32zero]
  have h2t : (scenarioS2 S1).trauma = ⟨6710886, -25⟩ := by
    rw [scenarioS2, reduceTraumaF32_trauma, h1t]
    decide
  have h2s : (scenarioS2 S1).seed = S1 := by
    rw [scenarioS2, reduceTraumaF32_seed, h1s]
  have hthr : ¬ f32_0_3.fle (scenarioS2 S1).trauma := by
    rw [h2t]
    decide
  have h3 : scenarioS3 S1 N3 = addTraumaF32 N3 f32_0_1 (scenarioS2 S1) := by
    rw [scenarioS3, addTraumaWithThresholdF32_eq, if_neg hthr]
  have h3t : (scenarioS3 S1 N3).trauma = ⟨10066329, -25⟩ := by
    rw [h3, addTraumaF32_trauma, h2t]
    decide
  have h3s : (scenarioS3 S1 N3).seed = S1 := by
    rw [h3, addTraumaF32_seed, h2t, h2s]
    simp
  have h4t : (scenarioS4 S1 N3).trauma = f32zero := by
    rw [scenarioS4, reduceTraumaF32_trauma, h3t]
    decide
  have h5s : (addTraumaF32 S2 f32_0_2 (scenarioS4 S1 N3)).seed = S2 := by
    rw [addTraumaF32_seed, h4t]
    simp [f32zero]
  refine ⟨h1t, h1s, h2t, h3t, h3s, h4t, h5s, ?_⟩
  intro h
  rw [h5s, h1s]
  exact fun hh => h hh.symm

/-- Witness for C9's amended theorem at concrete seeds `S1 = 1`, `S2 = 2`:
the post-zero-crossing call records a seed different from `S1`. -/
theorem scenario_f32_amended_witness :
    (addTraumaF32 ⟨2, 0⟩ f32_0_2 (scenarioS4 ⟨1, 0⟩ ⟨0, 0⟩)).seed ≠
      (scenarioS1 ⟨1, 0⟩).seed := by
  exact (scenario_f32_amended ⟨1, 0⟩ ⟨0, 0⟩ ⟨2, 0⟩).2.2.2.2.2.2.2 (by decide)

end Rancic
